import Mathlib

/-!
Verification of the HTTP/1.1 connection dispatcher of this repository
(src/actix-http/src/h1/dispatcher.rs) and its message-body abstraction
(src/actix-http/src/body.rs), as a shallow embedding in Lean.

The dispatcher itself is translated from the source.  Its collaborators that
are not part of the staged sources (the wire codec of h1/codec.rs, the payload
channel of h1/payload.rs, the response rendering of h1/encoder.rs, and the
transport) are modelled from the spec at the boundary the dispatcher sees:
  - the codec's decoding is a script of decode outcomes consumed one per call
    (the spec: each call decodes at most one message; the caller loops),
  - response heads written to the write buffer are kept as structured items
    and rendered to bytes by a spec-modelled status-line printer,
  - the transport write side is an unbounded sink, exactly as in the unit
    tests' Buffer type, and timers report readiness as an input.
Handler futures (external collaborators) are modelled as deterministic
futures that are ready after a scripted number of polls.
-/

namespace ActixH1

/-- Byte strings, abstracted as lists of characters. -/
abbrev Bytes := List Char

/-- BodySize from src/actix-http/src/body.rs. -/
inductive BodySize
  | none
  | empty
  | sized (n : Nat)
  | sized64 (n : Nat)
  | stream
deriving DecidableEq

/-- BodySize::is_eof from src/actix-http/src/body.rs. -/
def BodySize.is_eof : BodySize → Bool
  | .none => true
  | .empty => true
  | .sized 0 => true
  | .sized64 0 => true
  | _ => false

/-- One scripted behaviour step of an arbitrary asynchronous MessageBody
implementation (the Body::Message variant boxes any such implementation):
either the next chunk is ready, or the producer is not ready this poll. -/
inductive StreamEvent
  | chunk (data : Bytes)
  | pending
deriving DecidableEq

/-- Body from src/actix-http/src/body.rs.  Body::Message boxes an arbitrary
MessageBody; it is modelled by its declared size hint and the script of its
poll outcomes (all MessageBody implementations in body.rs are infallible,
so the script has no error step). -/
inductive Body
  | none
  | empty
  | bytes (b : Bytes)
  | message (size : BodySize) (script : List StreamEvent)
deriving DecidableEq

/-- Poll<Option<Bytes>, Error> as returned by MessageBody::poll_next
(the error case does not occur for the bodies modelled here). -/
inductive BodyPoll
  | ready (chunk : Option Bytes)
  | notReady
deriving DecidableEq

/-- MessageBody::length for Body (src/actix-http/src/body.rs, impl MessageBody
for Body). -/
def Body.length : Body → BodySize
  | .none => .none
  | .empty => .empty
  | .bytes b => .sized b.length
  | .message size _ => size

/-- MessageBody::poll_next for Body (src/actix-http/src/body.rs).  Rust
mutates the body in place; here the mutated body is returned alongside the
poll result.  Body::Bytes with non-empty content yields the whole content
once (bin.split_to(len) leaves the empty buffer behind). -/
def Body.poll_next : Body → BodyPoll × Body
  | .none => (.ready Option.none, .none)
  | .empty => (.ready Option.none, .empty)
  | .bytes b =>
    if b.isEmpty then (.ready Option.none, .bytes b)
    else (.ready (some b), .bytes [])
  | .message size script =>
    match script with
    | [] => (.ready Option.none, .message size [])
    | .chunk d :: rest => (.ready (some d), .message size rest)
    | .pending :: rest => (.notReady, .message size rest)

/-- The result of the k-th call to poll_next (k counted from 0), threading the
mutated body through the earlier calls. -/
def Body.poll_next_at : Nat → Body → BodyPoll
  | 0, b => (Body.poll_next b).1
  | Nat.succ n, b => Body.poll_next_at n (Body.poll_next b).2

/-- Requests are abstracted to an identity and the Expect: 100-continue flag,
which is all handle_request inspects (the rest is carried opaquely to the
service). -/
structure Request where
  id : Nat
  expect : Bool
deriving DecidableEq

/-- A response as the dispatcher sees it after replace_body: a status code
(head) plus the response body. -/
structure Response where
  status : Nat
  body : Body
deriving DecidableEq

/-- DispatcherMessage from src/actix-http/src/h1/dispatcher.rs: a parsed
request awaiting handling, or a precomputed error response (carried by its
status code; all error entries the dispatcher builds are finish().drop_body()
responses with empty body). -/
inductive DispatcherMessage
  | item (req : Request)
  | error (status : Nat)
deriving DecidableEq

/-- A service future: ready with its response after `delay` unready polls.
Service errors are converted into a response by the external error taxonomy
before the dispatcher encodes them, so the model carries the response. -/
structure ServiceFuture where
  delay : Nat
  resp : Response
deriving DecidableEq

instance {α β : Type} [DecidableEq α] [DecidableEq β] : DecidableEq (Except α β) :=
  fun x y =>
  match x, y with
  | .ok a, .ok b => if h : a = b then isTrue (by rw [h]) else isFalse (by simp [h])
  | .error a, .error b => if h : a = b then isTrue (by rw [h]) else isFalse (by simp [h])
  | .ok _, .error _ => isFalse (by simp)
  | .error _, .ok _ => isFalse (by simp)

/-- An expect-service future: ready after `delay` unready polls with either
the admitted request or an error response. -/
structure ExpectFuture where
  delay : Nat
  result : Except Response Request
deriving DecidableEq

/-- Async poll of a value. -/
inductive Poll (α : Type)
  | ready (a : α)
  | notReady
deriving DecidableEq

/-- Polling a service future: ready at delay 0, otherwise not ready with the
delay counted down (the future is mutated by the poll). -/
def ServiceFuture.poll (f : ServiceFuture) : Poll Response × ServiceFuture :=
  match f.delay with
  | 0 => (.ready f.resp, f)
  | Nat.succ k => (.notReady, ⟨k, f.resp⟩)

/-- Polling an expect future. -/
def ExpectFuture.poll (f : ExpectFuture) :
    Poll (Except Response Request) × ExpectFuture :=
  match f.delay with
  | 0 => (.ready f.result, f)
  | Nat.succ k => (.notReady, ⟨k, f.result⟩)

/-- State from src/actix-http/src/h1/dispatcher.rs. -/
inductive State
  | none
  | expectCall (fut : ExpectFuture)
  | serviceCall (fut : ServiceFuture)
  | sendPayload (body : Body)
deriving DecidableEq

/-- State::is_empty. -/
def State.is_empty : State → Bool
  | .none => true
  | _ => false

/-- State::is_call. -/
def State.is_call : State → Bool
  | .serviceCall _ => true
  | _ => false

/-- The Flags bitset of the dispatcher, as independent booleans. -/
structure Flags where
  started : Bool
  keepalive : Bool
  polled : Bool
  shutdown : Bool
  read_disconnect : Bool
  write_disconnect : Bool
  dropping : Bool
deriving DecidableEq

/-- io::Error, abstracted to an identity. -/
abbrev IoError := Nat

/-- ParseError from src/actix-http/src/error.rs. -/
inductive ParseError
  | method
  | uri
  | version
  | header
  | tooLarge
  | incomplete
  | status
  | timeout
  | io (e : IoError)
  | utf8
deriving DecidableEq

/-- PayloadError from src/actix-http/src/error.rs (the variants the
dispatcher produces). -/
inductive PayloadError
  | incomplete (e : Option IoError)
  | encodingCorrupted
  | overflow
  | unknownLength
  | io (e : IoError)
deriving DecidableEq

/-- DispatchError from src/actix-http/src/error.rs. -/
inductive DispatchError
  | service
  | upgrade
  | io (e : IoError)
  | parse (e : ParseError)
  | slowRequestTimeout
  | disconnectTimeout
  | payloadIsNotConsumed
  | malformedRequest
  | internalError
  | unknown
deriving DecidableEq

/-- Modelled from the spec: the readiness signal a Payload Channel consumer
reports so the producer can stop draining the socket (h1/payload.rs is not
among the staged sources; section 3 of the spec defines the signal as the
set containing Read and Pause). -/
inductive PayloadStatus
  | read
  | pause
deriving DecidableEq

/-- Modelled from the spec: the producer half of the Payload Channel
(h1/payload.rs is not among the staged sources).  State: buffered bytes, EOF
flag, terminal error, and the consumer-reported readiness signal. -/
structure PayloadSender where
  status : PayloadStatus
  buffered : List Bytes
  eof : Bool
  err : Option PayloadError
deriving DecidableEq

/-- PayloadSender::need_read: the consumer-reported readiness signal. -/
def PayloadSender.need_read (p : PayloadSender) : PayloadStatus := p.status

/-- PayloadSender::feed_data: push body bytes to the consumer. -/
def PayloadSender.feed_data (p : PayloadSender) (d : Bytes) : PayloadSender :=
  { p with buffered := p.buffered ++ [d] }

/-- PayloadSender::feed_eof: signal end of body to the consumer. -/
def PayloadSender.feed_eof (p : PayloadSender) : PayloadSender :=
  { p with eof := true }

/-- PayloadSender::set_error: deliver a terminal error to the consumer. -/
def PayloadSender.set_error (p : PayloadSender) (e : PayloadError) : PayloadSender :=
  { p with err := some e }

/-- Payload::create: a fresh channel whose consumer initially reports Read. -/
def Payload.create : PayloadSender :=
  { status := .read, buffered := [], eof := false, err := Option.none }

/-- MessageType of the h1 codec after decoding a head: no body, a
length-delimited payload, or a chunked stream. -/
inductive MessageType
  | none
  | payload
  | stream
deriving DecidableEq

/-- One outcome of Codec::decode, as the dispatcher consumes them: a decoded
request head (together with the codec's resulting message_type), a body
chunk (None marks end of body), or a parse failure.  The codec itself is not
among the staged sources; per the spec each decode call consumes at most one
complete syntactic unit, so the read buffer is modelled as the script of
decode outcomes it holds, and Ok(None) is the script running out. -/
inductive DecodeEvent
  | item (req : Request) (mt : MessageType)
  | chunk (data : Option Bytes)
  | parseErr (e : ParseError)
deriving DecidableEq

/-- One serialized unit appended to the write buffer: an encoded response
head (with the body size hint that chose its framing), an encoded body chunk
frame (None is the terminating zero-length chunk frame), or the literal
interim 100-continue bytes. -/
inductive OutItem
  | head (status : Nat) (size : BodySize)
  | chunk (data : Option Bytes)
  | continue100
deriving DecidableEq

/-- Modelled from the spec: reason phrases of the wire format for the status
codes this development needs (the response builders and h1/encoder.rs are
not among the staged sources; section 6 of the spec fixes the literal
status-line bytes). -/
def reasonPhrase (status : Nat) : String :=
  if status = 200 then "OK"
  else if status = 400 then "Bad Request"
  else if status = 408 then "Request Timeout"
  else if status = 500 then "Internal Server Error"
  else ""

/-- Modelled from the spec: the status line an encoded response head starts
with, literally "HTTP/1.1 400 Bad Request\r\n" for a 400 response. -/
def statusLineBytes (status : Nat) : Bytes :=
  ("HTTP/1.1 " ++ toString status ++ " " ++ reasonPhrase status ++ "\r\n").data

/-- Modelled from the spec: bytes of one write-buffer item.  A response head
renders as its status line followed by the CRLF ending the header block; a
chunk frame carries its data (framing overhead is immaterial to the claims);
the terminating chunk frame closes the body. -/
def renderItem : OutItem → Bytes
  | .head status _ => statusLineBytes status ++ "\r\n".data
  | .chunk (some d) => d
  | .chunk Option.none => []
  | .continue100 => "HTTP/1.1 100 Continue\r\n\r\n".data

/-- Bytes of a whole buffer. -/
def renderBuf (buf : List OutItem) : Bytes := (buf.map renderItem).flatten

/-- write_buf.len(): the byte length of the buffer. -/
def bufLen (buf : List OutItem) : Nat := (renderBuf buf).length

/-- LW_BUFFER_SIZE from src/actix-http/src/h1/dispatcher.rs. -/
def LW_BUFFER_SIZE : Nat := 4096

/-- HW_BUFFER_SIZE from src/actix-http/src/h1/dispatcher.rs. -/
def HW_BUFFER_SIZE : Nat := 32768

/-- MAX_PIPELINED_MESSAGES from src/actix-http/src/h1/dispatcher.rs. -/
def MAX_PIPELINED_MESSAGES : Nat := 16

/-- InnerDispatcher, with the transport and codec folded in as described at
the top of the file.  io_written is what poll_flush has pushed to the
transport; released_payloads keeps the shared channel state the consumer
still observes after the dispatcher drops its sender half. -/
structure Inner where
  flags : Flags
  error : Option DispatchError
  state : State
  payload : Option PayloadSender
  messages : List DispatcherMessage
  ka_timer : Option Nat
  ka_expire : Nat
  codec_events : List DecodeEvent
  codec_message_type : MessageType
  codec_keepalive : Bool
  write_buf : List OutItem
  io_written : List OutItem
  io_shutdown : Bool
  released_payloads : List PayloadSender
deriving DecidableEq

/-- The dispatcher's collaborators: the service and expect-service factories
(a fresh future per call) and the relevant ServiceConfig values. -/
structure Ctx where
  service : Request → ServiceFuture
  expect : Request → ExpectFuture
  keep_alive_expire : Option Nat
  client_disconnect_timer : Option Nat

/-- InnerDispatcher::can_read. -/
def can_read (i : Inner) : Bool :=
  if i.flags.read_disconnect then false
  else
    match i.payload with
    | some info =>
      match info.need_read with
      | .read => true
      | .pause => false
    | Option.none => true

/-- InnerDispatcher::client_disconnected. -/
def client_disconnected (i : Inner) : Inner :=
  let flags := { i.flags with read_disconnect := true, write_disconnect := true }
  match i.payload with
  | some p =>
    { i with
        flags := flags
        payload := Option.none
        released_payloads :=
          i.released_payloads ++ [p.set_error (PayloadError.incomplete Option.none)] }
  | Option.none => { i with flags := flags }

/-- InnerDispatcher::poll_flush.  The transport is an unbounded sink (the
unit tests' Buffer accepts every write), so the whole buffer is written and
the would-block result is false. -/
def poll_flush (i : Inner) : Inner × Bool :=
  ({ i with io_written := i.io_written ++ i.write_buf, write_buf := [] }, false)

/-- InnerDispatcher::send_response: encode the head into the write buffer,
overwrite KEEPALIVE with the codec's keep-alive decision, and pick the next
state from the body's size hint.  Encoding is infallible in this model, so
the error arm of the source does not arise. -/
def send_response (i : Inner) (status : Nat) (body : Body) : Inner × State :=
  let i :=
    { i with
        write_buf := i.write_buf ++ [OutItem.head status body.length]
        flags := { i.flags with keepalive := i.codec_keepalive } }
  match body.length with
  | .none => (i, State.none)
  | .empty => (i, State.none)
  | _ => (i, State.sendPayload body)

/-- InnerDispatcher::send_continue. -/
def send_continue (i : Inner) : Inner :=
  { i with write_buf := i.write_buf ++ [OutItem.continue100] }

/-- The tail of handle_request: call the main service and poll its future
once. -/
def call_service (ctx : Ctx) (i : Inner) (req : Request) : Inner × State :=
  let task := ctx.service req
  match task.poll with
  | (.ready res, _) => send_response i res.status res.body
  | (.notReady, task') => (i, State.serviceCall task')

/-- InnerDispatcher::handle_request: run the expect service first when the
request declares Expect: 100-continue, then call the main service. -/
def handle_request (ctx : Ctx) (i : Inner) (req : Request) : Inner × State :=
  if req.expect then
    let task := ctx.expect req
    match task.poll with
    | (.ready (.ok req'), _) => call_service ctx (send_continue i) req'
    | (.ready (.error res), _) => send_response i res.status res.body
    | (.notReady, task') => (i, State.expectCall task')
  else
    call_service ctx i req

/-- The decode loop of InnerDispatcher::poll_request, consuming the codec's
outcomes one per iteration.  The list argument is the remaining script (kept
in step with the codec_events field); the boolean accumulates `updated`.
Each break of the source loop is a non-recursive return here. -/
def poll_request_loop (ctx : Ctx) : List DecodeEvent → Inner → Bool → Inner × Bool
  | [], i, updated => (i, updated)
  | ev :: rest, i, updated =>
    match ev with
    | .item req mt =>
      let i :=
        { i with
            codec_events := rest
            flags := { i.flags with started := true }
            codec_message_type := mt }
      let i :=
        match mt with
        | .payload => { i with payload := some Payload.create }
        | .stream => { i with payload := some Payload.create }
        | .none => i
      if i.state.is_empty then
        let (i', st) := handle_request ctx i req
        poll_request_loop ctx rest { i' with state := st } true
      else
        poll_request_loop ctx rest
          { i with messages := i.messages ++ [DispatcherMessage.item req] } true
    | .chunk (some data) =>
      let i :=
        { i with codec_events := rest, flags := { i.flags with started := true } }
      match i.payload with
      | some p =>
        poll_request_loop ctx rest { i with payload := some (p.feed_data data) } true
      | Option.none =>
        ({ i with
             flags := { i.flags with read_disconnect := true }
             messages := i.messages ++ [DispatcherMessage.error 500]
             error := some DispatchError.internalError }, true)
    | .chunk Option.none =>
      let i :=
        { i with codec_events := rest, flags := { i.flags with started := true } }
      match i.payload with
      | some p =>
        poll_request_loop ctx rest
          { i with
              payload := Option.none
              released_payloads := i.released_payloads ++ [p.feed_eof] } true
      | Option.none =>
        ({ i with
             flags := { i.flags with read_disconnect := true }
             messages := i.messages ++ [DispatcherMessage.error 500]
             error := some DispatchError.internalError }, true)
    | .parseErr e =>
      let i := { i with codec_events := rest }
      match e with
      | .io ioe =>
        ({ client_disconnected i with error := some (DispatchError.io ioe) }, updated)
      | _ =>
        let i :=
          match i.payload with
          | some p =>
            { i with
                payload := Option.none
                released_payloads :=
                  i.released_payloads ++ [p.set_error PayloadError.encodingCorrupted] }
          | Option.none => i
        ({ i with
             messages := i.messages ++ [DispatcherMessage.error 400]
             flags := { i.flags with read_disconnect := true }
             error := some (DispatchError.parse e) }, updated)

/-- InnerDispatcher::poll_request: admission check (queue below the cap and
reading allowed), then the decode loop, then the keep-alive deadline
refresh. -/
def poll_request (ctx : Ctx) (i : Inner) : Inner × Bool :=
  if MAX_PIPELINED_MESSAGES ≤ i.messages.length ∨ can_read i = false then (i, false)
  else
    let (i, updated) := poll_request_loop ctx i.codec_events i false
    let i :=
      if updated && i.ka_timer.isSome then
        match ctx.keep_alive_expire with
        | some expire => { i with ka_expire := expire }
        | Option.none => i
      else i
    (i, updated)

/-- Result of the body-streaming inner loop of poll_response: either
poll_response returns with the given need_write value, or the body finished
(terminating chunk frame encoded, state reset to None) and the outer
poll_response loop continues. -/
inductive PayloadLoopResult
  | ret (need_write : Bool)
  | finished
deriving DecidableEq

/-- The State::SendPayload inner loop of InnerDispatcher::poll_response:
while the write buffer is under the high-water mark, poll the body; a chunk
is encoded as a chunk frame, end of body encodes the terminating chunk frame
and resets the state, not-ready returns need_write = false, and a full
buffer returns need_write = true.  Fuel-indexed; Option.none is running out
of fuel (the theorems always supply enough). -/
def send_payload_loop : Nat → Inner → Body → Option (Inner × PayloadLoopResult)
  | 0, _, _ => Option.none
  | Nat.succ fuel, i, body =>
    if bufLen i.write_buf < HW_BUFFER_SIZE then
      match body.poll_next with
      | (.ready (some item), body') =>
        send_payload_loop fuel
          { i with write_buf := i.write_buf ++ [OutItem.chunk (some item)] } body'
      | (.ready Option.none, _) =>
        some ({ i with
                  write_buf := i.write_buf ++ [OutItem.chunk Option.none]
                  state := State.none }, .finished)
      | (.notReady, body') =>
        some ({ i with state := State.sendPayload body' }, .ret false)
    else
      some ({ i with state := State.sendPayload body }, .ret true)

/-- InnerDispatcher::poll_response.  Every `continue` of the source loop is a
recursive call; every `break` returns the need_write flag.  Fuel-indexed as
above. -/
def poll_response (ctx : Ctx) : Nat → Inner → Option (Inner × Bool)
  | 0, _ => Option.none
  | Nat.succ fuel, i =>
    match i.state with
    | State.none =>
      match i.messages with
      | [] => some (i, false)
      | msg :: rest =>
        let i := { i with messages := rest }
        match msg with
        | .item req =>
          let (i', st) := handle_request ctx i req
          let i' := { i' with state := st }
          if st.is_empty then some (i', false)
          else poll_response ctx fuel i'
        | .error status =>
          let (i', st) := send_response i status Body.empty
          let i' := { i' with state := st }
          if st.is_empty then some (i', false)
          else poll_response ctx fuel i'
    | State.expectCall fut =>
      match fut.poll with
      | (.ready (.ok req), _) =>
        let i := send_continue i
        let i := { i with state := State.serviceCall (ctx.service req) }
        poll_response ctx fuel i
      | (.ready (.error res), _) =>
        let (i', st) := send_response i res.status res.body
        let i' := { i' with state := st }
        if st.is_empty then some (i', false)
        else poll_response ctx fuel i'
      | (.notReady, fut') =>
        let i := { i with state := State.expectCall fut' }
        if i.messages.isEmpty then some (i, false)
        else poll_response ctx fuel i
    | State.serviceCall fut =>
      match fut.poll with
      | (.ready res, _) =>
        let (i', st) := send_response i res.status res.body
        poll_response ctx fuel { i' with state := st }
      | (.notReady, fut') =>
        let i := { i with state := State.serviceCall fut' }
        let (i, updated) := poll_request ctx i
        if updated then poll_response ctx fuel i
        else some (i, false)
    | State.sendPayload body =>
      match send_payload_loop (Nat.succ fuel) i body with
      | Option.none => Option.none
      | some (i', .ret nw) => some (i', nw)
      | some (i', .finished) => poll_response ctx fuel i'

/-- InnerDispatcher::poll_keepalive.  The timer is external: timer_ready
tells whether the armed timer has fired this wake-up; ka_timer holds the
armed deadline.  A timer freshly armed inside this call cannot already have
fired, so those paths return directly. -/
def poll_keepalive (ctx : Ctx) (timer_ready : Bool) (i : Inner) :
    Except DispatchError Inner :=
  match i.ka_timer with
  | Option.none =>
    if i.flags.shutdown then
      match ctx.client_disconnect_timer with
      | some interval => Except.ok { i with ka_timer := some interval }
      | Option.none =>
        Except.ok { i with flags := { i.flags with read_disconnect := true } }
    else Except.ok i
  | some deadline =>
    if timer_ready then
      if i.flags.shutdown then Except.error DispatchError.disconnectTimeout
      else if i.ka_expire ≤ deadline then
        if i.state.is_empty && i.write_buf.isEmpty then
          if i.flags.started then
            let i := { i with flags := { i.flags with shutdown := true } }
            match ctx.client_disconnect_timer with
            | some deadline' => Except.ok { i with ka_timer := some deadline' }
            | Option.none =>
              Except.ok { i with flags := { i.flags with write_disconnect := true } }
          else
            let (i, _) := send_response i 408 Body.empty
            Except.ok
              { i with
                  flags := { i.flags with started := true, shutdown := true }
                  state := State.none }
        else
          match ctx.keep_alive_expire with
          | some deadline' => Except.ok { i with ka_timer := some deadline' }
          | Option.none => Except.ok i
      else Except.ok { i with ka_timer := some i.ka_expire }
    else Except.ok i

/-- The write loop of Dispatcher::poll: poll_response then flush, repeating
while the response loop still has buffered work (need_write) and the flush
did not block.  The buffer reserve step has no observable effect here. -/
def write_loop (ctx : Ctx) : Nat → Inner → Option Inner
  | 0, _ => Option.none
  | Nat.succ fuel, i =>
    match poll_response ctx (Nat.succ fuel) i with
    | Option.none => Option.none
    | some (i, need_write) =>
      let (i, wouldblock) := poll_flush i
      if wouldblock || !need_write then some i
      else write_loop ctx fuel i

/-- The overall outcome of one Dispatcher::poll. -/
inductive PollOutcome
  | ready
  | notReady
  | failed (e : DispatchError)
deriving DecidableEq

/-- Dispatcher::poll (impl Future for Dispatcher).  The read phase is folded
into the pre-loaded codec script (the read buffer's content is the script);
the transport's shutdown always completes.  The tail self.poll() calls on
transition to SHUTDOWN recurse on the fuel. -/
def dispatcher_poll (ctx : Ctx) (timer_ready : Bool) :
    Nat → Inner → Option (Inner × PollOutcome)
  | 0, _ => Option.none
  | Nat.succ fuel, i =>
    match poll_keepalive ctx timer_ready i with
    | Except.error e => some (i, .failed e)
    | Except.ok i =>
      if i.flags.shutdown then
        if i.flags.write_disconnect then some (i, .ready)
        else
          let (i, _) := poll_flush i
          if !i.write_buf.isEmpty then some (i, .notReady)
          else some ({ i with io_shutdown := true }, .ready)
      else
        let (i, _) := poll_request ctx i
        match write_loop ctx (Nat.succ fuel) i with
        | Option.none => Option.none
        | some i =>
          if i.flags.write_disconnect then some (i, .ready)
          else
            let is_empty := i.state.is_empty
            let i :=
              if i.flags.read_disconnect && is_empty then
                { i with flags := { i.flags with shutdown := true } }
              else i
            if is_empty && i.write_buf.isEmpty then
              match i.error with
              | some err => some ({ i with error := Option.none }, .failed err)
              | Option.none =>
                if i.flags.started && !i.flags.keepalive then
                  dispatcher_poll ctx timer_ready fuel
                    { i with flags := { i.flags with shutdown := true } }
                else if i.flags.shutdown then
                  dispatcher_poll ctx timer_ready fuel i
                else some (i, .notReady)
            else some (i, .notReady)

/-- Repeated wake-ups of the connection task: poll until the connection
future resolves (ready or failed) or the wake-up budget runs out.  Timers
never fire in these runs. -/
def run_polls (ctx : Ctx) (fuel : Nat) : Nat → Inner → Option Inner
  | 0, i => some i
  | Nat.succ n, i =>
    match dispatcher_poll ctx false fuel i with
    | some (i, PollOutcome.notReady) => run_polls ctx fuel n i
    | some (i, _) => some i
    | Option.none => Option.none

/-- Everything the dispatcher has emitted, flushed or still buffered, in
order. -/
def out_items (i : Inner) : List OutItem := i.io_written ++ i.write_buf

/-- The emitted bytes. -/
def out_bytes (i : Inner) : Bytes := renderBuf (out_items i)

/-- A fresh connection (Dispatcher::with_timeout with keep-alive enabled and
no timer armed) whose read buffer decodes to the given script. -/
def init (evs : List DecodeEvent) : Inner :=
  { flags :=
      { started := false, keepalive := true, polled := false, shutdown := false
        read_disconnect := false, write_disconnect := false, dropping := false }
    error := Option.none
    state := State.none
    payload := Option.none
    messages := []
    ka_timer := Option.none
    ka_expire := 0
    codec_events := evs
    codec_message_type := MessageType.none
    codec_keepalive := true
    write_buf := []
    io_written := []
    io_shutdown := false
    released_payloads := [] }

/-- The unit tests' service: every request is answered 200 with empty body,
immediately; the expect service admits every request immediately. -/
def okCtx : Ctx :=
  { service := fun _ => ⟨0, ⟨200, Body.empty⟩⟩
    expect := fun r => ⟨0, Except.ok r⟩
    keep_alive_expire := Option.none
    client_disconnect_timer := Option.none }

/-- A slow service (ready on the second poll), used to keep the dispatcher
busy while pipelined requests pile up. -/
def floodCtx : Ctx :=
  { service := fun r => ⟨1, ⟨200 + r.id, Body.empty⟩⟩
    expect := fun r => ⟨0, Except.ok r⟩
    keep_alive_expire := Option.none
    client_disconnect_timer := Option.none }

/-- Eighteen pipelined request heads delivered in a single read. -/
def floodEvents : List DecodeEvent :=
  (List.range 18).map (fun n => DecodeEvent.item ⟨n, false⟩ MessageType.none)

/-- An I/O-classified parse failure arriving while a payload channel is
active. -/
def c10Input : Inner :=
  { init [DecodeEvent.parseErr (ParseError.io 7)] with payload := some Payload.create }

/-- A fresh idle connection with the slow-request timer armed (deadline 5,
keep-alive expiry 0) and nothing received yet. -/
def c7Input : Inner := { init [] with ka_timer := some 5 }

/-- Chunk frames for a list of body fragments. -/
def chunkFrames (cs : List Bytes) : List OutItem :=
  cs.map (fun c => OutItem.chunk (some c))

/-- A write buffer already at the high-water mark (one 32768-byte chunk
frame). -/
def bigBuf : List OutItem :=
  [OutItem.chunk (some (List.replicate HW_BUFFER_SIZE 'a'))]

def c4HighInput : Inner :=
  { init [] with
      state := State.sendPayload (Body.message BodySize.stream [])
      write_buf := bigBuf }

def c4StreamInput : Inner :=
  { init [] with
      state := State.sendPayload
        (Body.message BodySize.stream [StreamEvent.chunk ['a'], StreamEvent.chunk ['b']]) }


/-- The pipelining scenario's collaborators: an expect service that admits
immediately (no request carries Expect anyway) and a main service answering
request r with status s(r), empty body, after d(r) unready polls. -/
def c1Ctx (s d : Request → Nat) : Ctx :=
  { service := fun r => ⟨d r, ⟨s r, Body.empty⟩⟩
    expect := fun r => ⟨0, Except.ok r⟩
    keep_alive_expire := Option.none
    client_disconnect_timer := Option.none }

/-- A read buffer holding one decoded head per request, in order. -/
def headEvents (rs : List Request) : List DecodeEvent :=
  rs.map (fun r => DecodeEvent.item r MessageType.none)

/-- The response head the scenario's service produces for a request. -/
def respHead (s : Request → Nat) (r : Request) : OutItem :=
  OutItem.head (s r) BodySize.empty

/-- The request currently owned by the processing state (at most one). -/
def stReqs : Option (Request × Nat) → List Request
  | Option.none => []
  | some (r, _) => [r]

/-- The processing state corresponding to an abstract in-flight entry. -/
def stState (s : Request → Nat) : Option (Request × Nat) → State
  | Option.none => State.none
  | some (r, k) => State.serviceCall ⟨k, ⟨s r, Body.empty⟩⟩

/-- What the decode loop does to a run of request heads met in the Idle
state: a prefix of zero-delay requests is handled (responded) on the spot;
the first slow request moves the state to ServiceCall; everything after it
is queued. -/
def c1_decode (d : Request → Nat) : List Request →
    List Request × Option (Request × Nat) × List Request
  | [] => ([], Option.none, [])
  | r :: rest =>
    if d r = 0 then
      let t := c1_decode d rest
      (r :: t.1, t.2.1, t.2.2)
    else ([], some (r, d r - 1), rest)

/-- Work left in one pending request: its polls plus handling overhead. -/
def c1_cost (d : Request → Nat) (r : Request) : Nat := d r + 2

/-- Work left in the in-flight entry and the queue. -/
def c1_mu (d : Request → Nat) (st : Option (Request × Nat)) (qs : List Request) : Nat :=
  (match st with
   | Option.none => 0
   | some (_, k) => k + 1) + (qs.map (c1_cost d)).sum

/-- The flag configuration the pipelining scenario maintains: keep-alive
granted by the codec, no shutdown and no disconnects. -/
def c1Flags (f : Flags) : Prop :=
  f.keepalive = true ∧ f.shutdown = false ∧ f.read_disconnect = false
  ∧ f.write_disconnect = false

/-- The post-wake-up shape of the pipelining scenario: responses for ps
flushed to the transport, qs still queued, the in-flight entry occupying
the state. -/
def c1Next (s : Request → Nat) (i : Inner) (ps : List Request)
    (st' : Option (Request × Nat)) (qs' : List Request) : Inner :=
  { i with
      state := stState s st'
      messages := qs'.map DispatcherMessage.item
      write_buf := []
      io_written := i.io_written ++ i.write_buf ++ ps.map (respHead s) }

/- ===================  theorems  =================== -/

/-- Claim C3: send_response encodes the head, overwrites the KEEPALIVE flag
with the codec's keep-alive decision, and returns State.None exactly when
the body size hint is None or Empty, State.SendPayload for every other
hint. -/
theorem send_response_spec (i : Inner) (status : Nat) (body : Body) :
    (send_response i status body).1.write_buf
        = i.write_buf ++ [OutItem.head status body.length]
    ∧ (send_response i status body).1.flags.keepalive = i.codec_keepalive
    ∧ (send_response i status body).2
        = (if body.length = BodySize.none ∨ body.length = BodySize.empty
           then State.none else State.sendPayload body) := by
  unfold send_response
  cases h : body.length <;> simp [h]

/-- Claim C6: can_read returns false exactly when READ_DISCONNECT is set or
an active payload channel's consumer reports Pause; in particular a Pause
report forces it false and a Read report lets decoding resume.
(The Read/Pause signal is modelled from the spec, h1/payload.rs not being
among the staged sources.) -/
theorem can_read_spec (i : Inner) :
    (can_read i = false ↔
      (i.flags.read_disconnect = true
        ∨ ∃ p, i.payload = some p ∧ p.need_read = PayloadStatus.pause))
    ∧ (∀ p, i.payload = some p → p.need_read = PayloadStatus.pause →
        can_read i = false)
    ∧ (∀ p, i.flags.read_disconnect = false → i.payload = some p →
        p.need_read = PayloadStatus.read → can_read i = true) := by
  unfold can_read PayloadSender.need_read
  refine ⟨?_, ?_, ?_⟩
  · cases hrd : i.flags.read_disconnect
    · cases hpl : i.payload with
      | none => simp
      | some p =>
        cases hs : p.status <;> simp [PayloadSender.need_read, hs]
    · simp
  · intro p hp hs
    cases hrd : i.flags.read_disconnect <;> simp [hp, hs]
  · intro p hrd hp hs
    simp [hrd, hp, hs]

/-- Body.poll_next leaves Body.bytes [] a fixed point that always reports
end of body. -/
theorem poll_next_at_bytes_nil (n : Nat) :
    Body.poll_next_at n (Body.bytes []) = BodyPoll.ready Option.none := by
  induction n with
  | zero => rfl
  | succ n ih => simpa [Body.poll_next_at, Body.poll_next] using ih

/-- Claim C9: a fixed in-memory body is a one-shot chunk then empty: its
size hint is Sized(len), a non-empty buffer yields its whole content on the
first poll and end-of-body on every later poll, an empty buffer and the
None/Empty variants yield end-of-body immediately and forever. -/
theorem body_bytes_one_shot (b : Bytes) (k : Nat)
    (hb : b ≠ []) (hk : 1 ≤ k) :
    Body.length (Body.bytes b) = BodySize.sized b.length
    ∧ Body.poll_next (Body.bytes b) = (BodyPoll.ready (some b), Body.bytes [])
    ∧ Body.poll_next_at 0 (Body.bytes b) = BodyPoll.ready (some b)
    ∧ Body.poll_next_at k (Body.bytes b) = BodyPoll.ready Option.none
    ∧ (∀ n, Body.poll_next_at n (Body.bytes []) = BodyPoll.ready Option.none)
    ∧ (∀ n, Body.poll_next_at n Body.none = BodyPoll.ready Option.none)
    ∧ (∀ n, Body.poll_next_at n Body.empty = BodyPoll.ready Option.none) := by
  have hbe : b.isEmpty = false := by
    cases b with
    | nil => exact absurd rfl hb
    | cons a l => rfl
  have hnone : ∀ n, Body.poll_next_at n Body.none = BodyPoll.ready Option.none := by
    intro n; induction n with
    | zero => rfl
    | succ n ih => simpa [Body.poll_next_at, Body.poll_next] using ih
  have hempty : ∀ n, Body.poll_next_at n Body.empty = BodyPoll.ready Option.none := by
    intro n; induction n with
    | zero => rfl
    | succ n ih => simpa [Body.poll_next_at, Body.poll_next] using ih
  refine ⟨rfl, ?_, ?_, ?_, poll_next_at_bytes_nil, hnone, hempty⟩
  · simp [Body.poll_next, hbe]
  · simp [Body.poll_next_at, Body.poll_next, hbe]
  · obtain ⟨k, rfl⟩ := Nat.exists_eq_add_of_le hk
    have : Body.poll_next_at (1 + k) (Body.bytes b)
        = Body.poll_next_at k (Body.bytes []) := by
      simp [Nat.add_comm 1 k, Body.poll_next_at, Body.poll_next, hbe]
    rw [this, poll_next_at_bytes_nil]

/-- Witness for body_bytes_one_shot at b = "ok", k = 3. -/
theorem body_bytes_one_shot_witness :
    Body.length (Body.bytes ['o', 'k']) = BodySize.sized 2
    ∧ Body.poll_next_at 3 (Body.bytes ['o', 'k']) = BodyPoll.ready Option.none := by
  have h := body_bytes_one_shot ['o', 'k'] 3 (by decide) (by decide)
  exact ⟨h.1, h.2.2.2.1⟩

theorem send_response_fields (i : Inner) (status : Nat) (body : Body) :
    (send_response i status body).1 =
      { i with
          write_buf := i.write_buf ++ [OutItem.head status body.length]
          flags := { i.flags with keepalive := i.codec_keepalive } } := by
  unfold send_response
  cases h : body.length <;> simp [h]

/-- call_service never touches the pending-message queue. -/
theorem call_service_messages (ctx : Ctx) (i : Inner) (req : Request) :
    (call_service ctx i req).1.messages = i.messages := by
  unfold call_service
  rcases h : (ctx.service req).poll with ⟨pr, t'⟩
  cases pr with
  | ready res => simp [h, send_response_fields]
  | notReady => simp [h]

/-- handle_request never touches the pending-message queue. -/
theorem handle_request_messages (ctx : Ctx) (i : Inner) (req : Request) :
    (handle_request ctx i req).1.messages = i.messages := by
  unfold handle_request
  cases hex : req.expect
  · simp [call_service_messages]
  · rcases h : (ctx.expect req).poll with ⟨pr, t'⟩
    cases pr with
    | ready r =>
      cases r with
      | ok req' => simp [h, call_service_messages, send_continue]
      | error res => simp [h, send_response_fields]
    | notReady => simp [h]

/-- The decode loop enqueues a 500 error entry only in the body-chunk-with-
no-active-channel branches: any 500 entry present after the loop was either
already there, or the loop hit a chunk outcome with no active channel and
then also recorded the internal fatal error and disconnected reads. -/
theorem poll_request_loop_500 (ctx : Ctx) :
    ∀ (evs : List DecodeEvent) (i : Inner) (b : Bool),
      DispatcherMessage.error 500 ∈ (poll_request_loop ctx evs i b).1.messages →
      DispatcherMessage.error 500 ∈ i.messages
      ∨ ((poll_request_loop ctx evs i b).1.error = some DispatchError.internalError
         ∧ (poll_request_loop ctx evs i b).1.flags.read_disconnect = true
         ∧ ∃ d, DecodeEvent.chunk d ∈ evs) := by
  intro evs
  induction evs with
  | nil => intro i b h; exact Or.inl h
  | cons ev rest ih =>
    intro i b h
    cases ev with
    | item req mt =>
      cases mt <;>
      · simp only [poll_request_loop] at h ⊢
        by_cases hse : i.state.is_empty = true
        · simp only [hse, if_true] at h ⊢
          rcases ih _ _ h with h500 | ⟨he, hrd, d, hd⟩
          · left
            have := h500
            simp only [handle_request_messages] at this
            simpa using this
          · exact Or.inr ⟨he, hrd, d, List.mem_cons_of_mem _ hd⟩
        · simp only [hse, if_false] at h ⊢
          rcases ih _ _ h with h500 | ⟨he, hrd, d, hd⟩
          · left
            have h2 := h500
            simp at h2
            exact h2
          · exact Or.inr ⟨he, hrd, d, List.mem_cons_of_mem _ hd⟩
    | chunk d =>
      cases d with
      | some data =>
        simp only [poll_request_loop] at h ⊢
        cases hpl : i.payload with
        | some p =>
          simp only [hpl] at h ⊢
          rcases ih _ _ h with h500 | ⟨he, hrd, d', hd⟩
          · exact Or.inl (by simpa using h500)
          · exact Or.inr ⟨he, hrd, d', List.mem_cons_of_mem _ hd⟩
        | none =>
          simp only [hpl] at h ⊢
          exact Or.inr ⟨by simp, by simp, ⟨some data, by simp⟩⟩
      | none =>
        simp only [poll_request_loop] at h ⊢
        cases hpl : i.payload with
        | some p =>
          simp only [hpl] at h ⊢
          rcases ih _ _ h with h500 | ⟨he, hrd, d', hd⟩
          · exact Or.inl (by simpa using h500)
          · exact Or.inr ⟨he, hrd, d', List.mem_cons_of_mem _ hd⟩
        | none =>
          simp only [hpl] at h ⊢
          exact Or.inr ⟨by simp, by simp, ⟨Option.none, by simp⟩⟩
    | parseErr e =>
      simp only [poll_request_loop] at h
      left
      cases e <;> cases hpl : i.payload <;>
        simpa [client_disconnected, hpl] using h

/-- Claim C2: a parse failure not classified as I/O enqueues a 400 Bad
Request error entry with empty body, sets READ_DISCONNECT, records the parse
error as the deferred fatal error and stops decoding; the bytes subsequently
written to the transport begin with exactly the 26 bytes
"HTTP/1.1 400 Bad Request\r\n" (shown on the malformed request line of the
unit test, whose decode outcome is ParseError::Version). -/
theorem malformed_request_400 (ctx : Ctx) (i : Inner) (e : ParseError)
    (rest : List DecodeEvent)
    (hio : ∀ ioe, e ≠ ParseError.io ioe)
    (hev : i.codec_events = DecodeEvent.parseErr e :: rest)
    (hcap : i.messages.length < MAX_PIPELINED_MESSAGES)
    (hread : can_read i = true) :
    ((poll_request ctx i).1.messages = i.messages ++ [DispatcherMessage.error 400]
      ∧ (poll_request ctx i).1.flags.read_disconnect = true
      ∧ (poll_request ctx i).1.error = some (DispatchError.parse e)
      ∧ (poll_request ctx i).1.codec_events = rest
      ∧ (poll_request ctx i).2 = false)
    ∧ (dispatcher_poll okCtx false 2 (init [DecodeEvent.parseErr ParseError.version])).map
        (fun p => ((out_bytes p.1).take 26, p.1.flags.read_disconnect, p.2))
      = some (("HTTP/1.1 400 Bad Request\r\n").data, true,
          PollOutcome.failed (DispatchError.parse ParseError.version)) := by
  have hcond : ¬(MAX_PIPELINED_MESSAGES ≤ i.messages.length ∨ can_read i = false) := by
    rintro (h | h)
    · exact absurd h (Nat.not_le.2 hcap)
    · rw [hread] at h; exact absurd h (by simp)
  constructor
  · cases e
    case io ioe => exact absurd rfl (hio ioe)
    all_goals
      cases hpl : i.payload <;>
        simp [poll_request, poll_request_loop, hev, hcond, hpl]
  · decide

/-- Claim C8: a body chunk (data or end-of-body) decoded while no payload
channel is active makes poll_request enqueue a 500 Internal Server Error
entry, set READ_DISCONNECT, record DispatchError::InternalError and stop
decoding; and this is the only way poll_request ever fabricates a 500
entry. -/
theorem unexpected_chunk_500 (ctx : Ctx) (i : Inner) (d : Option Bytes)
    (rest : List DecodeEvent)
    (hev : i.codec_events = DecodeEvent.chunk d :: rest)
    (hpl : i.payload = Option.none)
    (hcap : i.messages.length < MAX_PIPELINED_MESSAGES)
    (hread : can_read i = true) :
    ((poll_request ctx i).1.messages = i.messages ++ [DispatcherMessage.error 500]
      ∧ (poll_request ctx i).1.flags.read_disconnect = true
      ∧ (poll_request ctx i).1.error = some DispatchError.internalError
      ∧ (poll_request ctx i).1.codec_events = rest)
    ∧ (∀ (j : Inner),
        DispatcherMessage.error 500 ∈ (poll_request ctx j).1.messages →
        DispatcherMessage.error 500 ∈ j.messages
        ∨ ((poll_request ctx j).1.error = some DispatchError.internalError
           ∧ (poll_request ctx j).1.flags.read_disconnect = true
           ∧ ∃ d', DecodeEvent.chunk d' ∈ j.codec_events)) := by
  have hcond : ¬(MAX_PIPELINED_MESSAGES ≤ i.messages.length ∨ can_read i = false) := by
    rintro (h | h)
    · exact absurd h (Nat.not_le.2 hcap)
    · rw [hread] at h; exact absurd h (by simp)
  constructor
  · cases d <;>
      cases hkt : i.ka_timer <;>
        cases hke : ctx.keep_alive_expire <;>
          simp [poll_request, poll_request_loop, hev, hcond, hpl, hkt, hke]
  · intro j hmem
    by_cases hc : MAX_PIPELINED_MESSAGES ≤ j.messages.length ∨ can_read j = false
    · left
      simpa [poll_request, hc] using hmem
    · rcases hres : poll_request_loop ctx j.codec_events j false with ⟨jl, upd⟩
      have hfields :
          (poll_request ctx j).1.messages = jl.messages
          ∧ (poll_request ctx j).1.error = jl.error
          ∧ (poll_request ctx j).1.flags = jl.flags := by
        cases upd <;>
          cases hkt : jl.ka_timer <;>
            cases hke : ctx.keep_alive_expire <;>
              simp [poll_request, hc, hres, hkt, hke]
      have hmem' : DispatcherMessage.error 500 ∈ jl.messages := by
        rw [hfields.1] at hmem; exact hmem
      have := poll_request_loop_500 ctx j.codec_events j false
      rw [hres] at this
      rcases this hmem' with h500 | ⟨he, hrd, d', hd⟩
      · exact Or.inl h500
      · exact Or.inr ⟨by rw [hfields.2.1]; exact he,
          by rw [hfields.2.2]; exact hrd, d', hd⟩

/-- Claim C10: a parse failure classified as I/O disconnects both directions
(client_disconnected sets READ_DISCONNECT and WRITE_DISCONNECT together), an
active payload channel receives the terminal error PayloadError::
Incomplete(None) before the dispatcher drops its sender, and the I/O error
is recorded as the deferred fatal DispatchError::Io. -/
theorem io_parse_error_disconnects (ctx : Ctx) (i : Inner) (ioe : IoError)
    (rest : List DecodeEvent) (p : PayloadSender)
    (hev : i.codec_events = DecodeEvent.parseErr (ParseError.io ioe) :: rest)
    (hpl : i.payload = some p)
    (hcap : i.messages.length < MAX_PIPELINED_MESSAGES)
    (hread : can_read i = true) :
    ((poll_request ctx i).1.flags.read_disconnect = true
      ∧ (poll_request ctx i).1.flags.write_disconnect = true
      ∧ (poll_request ctx i).1.payload = Option.none
      ∧ (poll_request ctx i).1.released_payloads
          = i.released_payloads ++ [p.set_error (PayloadError.incomplete Option.none)]
      ∧ (poll_request ctx i).1.error = some (DispatchError.io ioe))
    ∧ (∀ (j : Inner), (client_disconnected j).flags.read_disconnect = true
        ∧ (client_disconnected j).flags.write_disconnect = true) := by
  have hcond : ¬(MAX_PIPELINED_MESSAGES ≤ i.messages.length ∨ can_read i = false) := by
    rintro (h | h)
    · exact absurd h (Nat.not_le.2 hcap)
    · rw [hread] at h; exact absurd h (by simp)
  constructor
  · simp [poll_request, poll_request_loop, hev, hcond, client_disconnected, hpl]
  · intro j
    cases hpj : j.payload <;> simp [client_disconnected, hpj]

/-- Witness for malformed_request_400 at the unit test's input. -/
theorem malformed_request_400_witness :
    (poll_request okCtx (init [DecodeEvent.parseErr ParseError.version])).1.error
        = some (DispatchError.parse ParseError.version)
    ∧ (poll_request okCtx
        (init [DecodeEvent.parseErr ParseError.version])).1.flags.read_disconnect
        = true := by
  have h := malformed_request_400 okCtx (init [DecodeEvent.parseErr ParseError.version])
      ParseError.version [] (fun _ hh => nomatch hh) rfl (by decide) (by decide)
  exact ⟨h.1.2.2.1, h.1.2.1⟩

/-- Witness for unexpected_chunk_500: an end-of-body marker on a fresh
connection with no active channel. -/
theorem unexpected_chunk_500_witness :
    (poll_request okCtx (init [DecodeEvent.chunk Option.none])).1.messages
        = [DispatcherMessage.error 500]
    ∧ (poll_request okCtx (init [DecodeEvent.chunk Option.none])).1.error
        = some DispatchError.internalError := by
  have h := unexpected_chunk_500 okCtx (init [DecodeEvent.chunk Option.none])
      Option.none [] rfl rfl (by decide) (by decide)
  exact ⟨by simpa using h.1.1, h.1.2.2.1⟩

/-- Witness for io_parse_error_disconnects: an I/O-classified parse failure
while a payload channel is active. -/
theorem io_parse_error_disconnects_witness :
    (poll_request okCtx c10Input).1.flags.write_disconnect = true
    ∧ (poll_request okCtx c10Input).1.released_payloads
        = [(Payload.create).set_error (PayloadError.incomplete Option.none)] := by
  have h := io_parse_error_disconnects okCtx c10Input 7 [] Payload.create
      rfl rfl (by decide) (by decide)
  exact ⟨h.1.2.1, by simpa using h.1.2.2.2.1⟩

/-- Claim C5, counterexample: the cap on pipelined messages is checked only
on entry to poll_request, not inside its decode loop.  From a fresh
connection, eighteen pipelined request heads in a single read with a slow
handler leave seventeen entries in the pending-message queue after one
poll_request call: the backlog does not stay bounded by the cap of 16. -/
theorem pipelining_cap_overrun :
    (poll_request floodCtx (init floodEvents)).1.messages.length = 17
    ∧ MAX_PIPELINED_MESSAGES < 17 := by
  constructor
  · decide
  · decide

/-- Claim C5, amended: whenever the queue already holds 16 or more entries
at the start of a poll_request call (or reading is not allowed), the call
decodes nothing and returns immediately; the cap is enforced only at call
entry, and a call entered below the cap can push the queue past the cap
(shown by the same flood input). -/
theorem pipelining_cap_entry_only (ctx : Ctx) (i : Inner)
    (h : MAX_PIPELINED_MESSAGES ≤ i.messages.length) :
    poll_request ctx i = (i, false)
    ∧ (∀ (j : Inner), can_read j = false → poll_request ctx j = (j, false))
    ∧ ∃ (ctx' : Ctx) (j : Inner),
        j.messages.length < MAX_PIPELINED_MESSAGES
        ∧ MAX_PIPELINED_MESSAGES < (poll_request ctx' j).1.messages.length := by
  refine ⟨?_, ?_, floodCtx, init floodEvents, by decide, by decide⟩
  · have : (MAX_PIPELINED_MESSAGES ≤ i.messages.length ∨ can_read i = false) := Or.inl h
    simp [poll_request, this]
  · intro j hj
    have : (MAX_PIPELINED_MESSAGES ≤ j.messages.length ∨ can_read j = false) := Or.inr hj
    simp [poll_request, this]

/-- Witness for pipelining_cap_entry_only at a connection whose queue
already holds 16 entries. -/
theorem pipelining_cap_entry_only_witness :
    poll_request okCtx
        { init [DecodeEvent.item ⟨0, false⟩ MessageType.none] with
            messages := List.replicate 16 (DispatcherMessage.error 400) }
      = ({ init [DecodeEvent.item ⟨0, false⟩ MessageType.none] with
            messages := List.replicate 16 (DispatcherMessage.error 400) }, false) := by
  have h := pipelining_cap_entry_only okCtx
      { init [DecodeEvent.item ⟨0, false⟩ MessageType.none] with
          messages := List.replicate 16 (DispatcherMessage.error 400) }
      (by decide)
  exact h.1

/-- Claim C7: if the keep-alive timer fires before STARTED is set, with the
connection idle and the write buffer empty, poll_keepalive encodes a 408
Request Timeout response with empty body, sets STARTED and SHUTDOWN, and
resets the state to Idle; the following wake-up then flushes the 408 and
completes the connection after shutting the transport down. -/
theorem slow_request_408 (ctx : Ctx) (i : Inner) (deadline : Nat)
    (htimer : i.ka_timer = some deadline)
    (hsh : i.flags.shutdown = false)
    (hwd : i.flags.write_disconnect = false)
    (hst : i.flags.started = false)
    (hdl : i.ka_expire ≤ deadline)
    (hempty : i.state = State.none)
    (hwb : i.write_buf = []) :
    ∃ i', poll_keepalive ctx true i = Except.ok i'
      ∧ i'.write_buf = [OutItem.head 408 BodySize.empty]
      ∧ i'.flags.started = true
      ∧ i'.flags.shutdown = true
      ∧ i'.state = State.none
      ∧ ∀ fuel, dispatcher_poll ctx false (fuel + 1) i'
          = some ({ i' with
                      io_written := i'.io_written ++ [OutItem.head 408 BodySize.empty]
                      write_buf := []
                      io_shutdown := true }, PollOutcome.ready) := by
  have hcalc : poll_keepalive ctx true i
      = Except.ok
          ({ i with
              write_buf := i.write_buf ++ [OutItem.head 408 BodySize.empty]
              flags :=
                { i.flags with
                    keepalive := i.codec_keepalive
                    started := true
                    shutdown := true }
              state := State.none }) := by
    unfold poll_keepalive
    rw [htimer]
    simp [hsh, hdl, hempty, hwb, hst, htimer, send_response_fields, State.is_empty,
      Body.length]
  refine ⟨_, hcalc, by simp [hwb], by simp, by simp, rfl, ?_⟩
  intro fuel
  unfold dispatcher_poll
  unfold poll_keepalive
  simp [htimer, hwd, poll_flush, hwb]

/-- Witness for slow_request_408 at a fresh idle connection with an armed
timer. -/
theorem slow_request_408_witness :
    ∃ i', poll_keepalive okCtx true c7Input = Except.ok i'
      ∧ i'.write_buf = [OutItem.head 408 BodySize.empty]
      ∧ i'.flags.shutdown = true := by
  have h := slow_request_408 okCtx c7Input 5 rfl rfl rfl rfl (by decide) rfl rfl
  obtain ⟨i', h1, h2, h3, h4, h5, h6⟩ := h
  exact ⟨i', h1, h2, h4⟩

/-- The body-streaming inner loop on an all-ready chunk script: with a full
write buffer it returns need_write immediately without polling; under the
high-water mark it encodes chunk frames until the script ends (then the
terminating chunk frame, state reset to None) or the buffer fills (then
need_write with the remaining script still in the body). -/
theorem spl_chunks (sz : BodySize) :
    ∀ (cs : List Bytes) (i : Inner) (fuel : Nat), cs.length + 1 ≤ fuel →
      (HW_BUFFER_SIZE ≤ bufLen i.write_buf →
        send_payload_loop fuel i (Body.message sz (cs.map StreamEvent.chunk))
          = some ({ i with
                state := State.sendPayload (Body.message sz (cs.map StreamEvent.chunk)) },
              PayloadLoopResult.ret true))
      ∧ (bufLen i.write_buf < HW_BUFFER_SIZE →
        ∃ ds es, cs = ds ++ es
          ∧ ((es = []
              ∧ send_payload_loop fuel i (Body.message sz (cs.map StreamEvent.chunk))
                = some ({ i with
                      write_buf := i.write_buf ++ chunkFrames ds ++ [OutItem.chunk Option.none]
                      state := State.none },
                    PayloadLoopResult.finished))
             ∨ (ds ≠ []
              ∧ send_payload_loop fuel i (Body.message sz (cs.map StreamEvent.chunk))
                = some ({ i with
                      write_buf := i.write_buf ++ chunkFrames ds
                      state := State.sendPayload (Body.message sz (es.map StreamEvent.chunk)) },
                    PayloadLoopResult.ret true)))) := by
  intro cs
  induction cs with
  | nil =>
    intro i fuel hfuel
    cases fuel with
    | zero => exact absurd hfuel (by simp)
    | succ f =>
      constructor
      · intro hhw
        simp only [send_payload_loop, Body.poll_next, List.map_nil]
        rw [if_neg (by omega)]
      · intro hlw
        refine ⟨[], [], by simp, Or.inl ⟨rfl, ?_⟩⟩
        simp only [send_payload_loop, Body.poll_next, List.map_nil]
        rw [if_pos hlw]
        simp [chunkFrames]
  | cons c cs' ih =>
    intro i fuel hfuel
    cases fuel with
    | zero => exact absurd hfuel (by simp)
    | succ f =>
      constructor
      · intro hhw
        simp only [send_payload_loop, List.map_cons, Body.poll_next]
        rw [if_neg (by omega)]
      · intro hlw
        have hf : cs'.length + 1 ≤ f := by
          simpa [Nat.succ_le_succ_iff] using hfuel
        set i1 : Inner :=
          { i with write_buf := i.write_buf ++ [OutItem.chunk (some c)] } with hi1
        have step : send_payload_loop (Nat.succ f) i
              (Body.message sz ((c :: cs').map StreamEvent.chunk))
            = send_payload_loop f i1 (Body.message sz (cs'.map StreamEvent.chunk)) := by
          simp only [send_payload_loop, List.map_cons, Body.poll_next]
          rw [if_pos hlw]
        by_cases h1 : bufLen i1.write_buf < HW_BUFFER_SIZE
        · rcases (ih i1 f hf).2 h1 with ⟨ds', es', hsplit, hcase⟩
          refine ⟨c :: ds', es', by simp [hsplit], ?_⟩
          rcases hcase with ⟨hes, heq⟩ | ⟨hds, heq⟩
          · refine Or.inl ⟨hes, ?_⟩
            rw [step, heq]
            simp [hi1, chunkFrames]
          · refine Or.inr ⟨by simp, ?_⟩
            rw [step, heq]
            simp [hi1, chunkFrames]
        · have hhw1 : HW_BUFFER_SIZE ≤ bufLen i1.write_buf := by omega
          have heq := (ih i1 f hf).1 hhw1
          refine ⟨[c], cs', by simp, Or.inr ⟨by simp, ?_⟩⟩
          rw [step, heq]
          simp [hi1, chunkFrames]

/-- The write loop drains an all-ready chunked body completely: every chunk
frame is emitted in order, the terminating chunk frame closes the body, the
state returns to None and the buffer is flushed, across as many high-water
pauses as needed. -/
theorem wl_stream_drain (ctx : Ctx) (sz : BodySize) :
    ∀ (n : Nat) (cs : List Bytes) (i : Inner),
      cs.length ≤ n →
      i.messages = [] →
      i.state = State.sendPayload (Body.message sz (cs.map StreamEvent.chunk)) →
      bufLen i.write_buf < HW_BUFFER_SIZE →
      ∀ fuel, cs.length + 2 ≤ fuel →
        write_loop ctx fuel i
          = some { i with
                     state := State.none
                     write_buf := []
                     io_written := i.io_written ++ i.write_buf
                       ++ chunkFrames cs ++ [OutItem.chunk Option.none] } := by
  intro n
  induction n with
  | zero =>
    intro cs i hlen hmsg hst hlw fuel hfuel
    have hcs : cs = [] := List.length_eq_zero.1 (Nat.le_zero.1 hlen)
    subst hcs
    cases fuel with
    | zero => exact absurd hfuel (by simp)
    | succ f =>
      rcases (spl_chunks sz [] i (Nat.succ f) (by omega)).2 hlw
        with ⟨ds, es, hsplit, hcase⟩
      have hds : ds = [] := by
        rcases List.append_eq_nil.1 hsplit.symm with ⟨h1, _⟩; exact h1
      have hes : es = [] := by
        rcases List.append_eq_nil.1 hsplit.symm with ⟨_, h2⟩; exact h2
      subst hds; subst hes
      rcases hcase with ⟨_, heq⟩ | ⟨hne, _⟩
      · cases f with
        | zero =>
          exact absurd hfuel (by simp)
        | succ f' =>
          simp only [write_loop, poll_response, hst, heq]
          simp only [poll_response, hmsg]
          simp [poll_flush, chunkFrames]
      · simp at hne
  | succ m ih =>
    intro cs i hlen hmsg hst hlw fuel hfuel
    cases fuel with
    | zero => exact absurd hfuel (by simp)
    | succ f =>
      rcases (spl_chunks sz cs i (Nat.succ f) (by omega)).2 hlw
        with ⟨ds, es, hsplit, hcase⟩
      rcases hcase with ⟨hes, heq⟩ | ⟨hds, heq⟩
      · subst hes
        have hdc : ds = cs := by simpa using hsplit.symm
        subst hdc
        cases f with
        | zero => exact absurd hfuel (by omega)
        | succ f' =>
          simp only [write_loop, poll_response, hst, heq]
          simp only [poll_response, hmsg]
          simp [poll_flush, chunkFrames]
      · -- a high-water pause: flush and keep draining
        cases f with
        | zero =>
          exfalso
          have : cs.length + 1 ≤ 0 + 1 := by omega
          omega
        | succ f' =>
          have hstep : write_loop ctx (Nat.succ (Nat.succ f')) i
              = write_loop ctx (Nat.succ f')
                  { i with
                      state := State.sendPayload (Body.message sz (es.map StreamEvent.chunk))
                      write_buf := []
                      io_written := i.io_written ++ i.write_buf ++ chunkFrames ds } := by
            simp only [write_loop, poll_response, hst, heq]
            simp [poll_flush]
          rw [hstep]
          have heslen : es.length ≤ m := by
            have : ds.length + es.length = cs.length := by
              rw [hsplit]; simp
            have hdpos : 1 ≤ ds.length := by
              cases ds with
              | nil => exact absurd rfl hds
              | cons a l => simp
            omega
          have := ih es
              { i with
                  state := State.sendPayload (Body.message sz (es.map StreamEvent.chunk))
                  write_buf := []
                  io_written := i.io_written ++ i.write_buf ++ chunkFrames ds }
              heslen (by simpa using hmsg) rfl (by simp [bufLen, renderBuf, HW_BUFFER_SIZE])
              (Nat.succ f')
              (by
                have : ds.length + es.length = cs.length := by rw [hsplit]; simp
                have hdpos : 1 ≤ ds.length := by
                  cases ds with
                  | nil => exact absurd rfl hds
                  | cons a l => simp
                omega)
          rw [this]
          congr 1
          simp [hsplit, chunkFrames]

/-- Claim C4: in the SendPayload state the body is polled only while the
write buffer is below the 32768-byte high-water mark (a full buffer returns
need_write without touching the body); a ready chunk is encoded as a chunk
frame and streaming continues; a not-ready poll stops for the turn keeping
the remaining body; and a stream body that completes always ends with the
terminating zero-length chunk frame before the state returns to Idle. -/
theorem stream_body_terminates (ctx : Ctx) :
    (∀ (i : Inner) (b : Body) (fuel : Nat),
        i.state = State.sendPayload b →
        HW_BUFFER_SIZE ≤ bufLen i.write_buf →
        poll_response ctx (fuel + 1) i = some (i, true))
    ∧ (∀ (i : Inner) (sz : BodySize) (rest : List StreamEvent) (fuel : Nat),
        i.state = State.sendPayload (Body.message sz (StreamEvent.pending :: rest)) →
        bufLen i.write_buf < HW_BUFFER_SIZE →
        poll_response ctx (fuel + 1) i
          = some ({ i with state := State.sendPayload (Body.message sz rest) }, false))
    ∧ (∀ (cs : List Bytes) (sz : BodySize) (i : Inner),
        i.messages = [] →
        i.state = State.sendPayload (Body.message sz (cs.map StreamEvent.chunk)) →
        ∀ fuel, cs.length + 3 ≤ fuel →
          ∃ i', write_loop ctx fuel i = some i'
            ∧ out_items i' = out_items i ++ chunkFrames cs ++ [OutItem.chunk Option.none]
            ∧ i'.state = State.none) := by
  refine ⟨?_, ?_, ?_⟩
  · intro i b fuel hst hhw
    have : ({ i with state := State.sendPayload b } : Inner) = i := by
      rw [← hst]
    simp only [poll_response, hst, send_payload_loop]
    rw [if_neg (by omega)]
    simp [this]
  · intro i sz rest fuel hst hlw
    simp only [poll_response, hst, send_payload_loop, Body.poll_next]
    rw [if_pos hlw]
  · intro cs sz i hmsg hst fuel hfuel
    by_cases hlw : bufLen i.write_buf < HW_BUFFER_SIZE
    · refine ⟨_, wl_stream_drain ctx sz cs.length cs i le_rfl hmsg hst hlw fuel
        (by omega), ?_, ?_⟩
      · simp [out_items]
      · rfl
    · cases fuel with
      | zero => exact absurd hfuel (by simp)
      | succ f =>
        have hpr : poll_response ctx (Nat.succ f) i = some (i, true) := by
          have h1 := (spl_chunks sz cs i (Nat.succ f) (by omega)).1 (by omega)
          have heta : ({ i with
              state := State.sendPayload (Body.message sz (cs.map StreamEvent.chunk)) }
              : Inner) = i := by
            rw [← hst]
          simp only [poll_response, hst, h1, heta]
        have hstep : write_loop ctx (Nat.succ f) i
            = write_loop ctx f
                { i with write_buf := [], io_written := i.io_written ++ i.write_buf } := by
          simp only [write_loop, hpr]
          simp [poll_flush]
        rw [hstep]
        refine ⟨_, wl_stream_drain ctx sz cs.length cs
            { i with write_buf := [], io_written := i.io_written ++ i.write_buf }
            le_rfl (by simpa using hmsg) (by simpa using hst)
            (by simp [bufLen, renderBuf, HW_BUFFER_SIZE]) f (by omega), ?_, ?_⟩
        · simp [out_items]
        · rfl

/-- Witness for stream_body_terminates: a full buffer pauses streaming, and
a two-chunk stream body drains to its frames plus the terminating frame. -/
theorem stream_body_terminates_witness :
    poll_response okCtx 3 c4HighInput = some (c4HighInput, true)
    ∧ ∃ i', write_loop okCtx 5 c4StreamInput = some i'
        ∧ out_items i'
            = [OutItem.chunk (some ['a']), OutItem.chunk (some ['b']),
               OutItem.chunk Option.none]
        ∧ i'.state = State.none := by
  have hbig : bufLen c4HighInput.write_buf = HW_BUFFER_SIZE := by
    simp [c4HighInput, bigBuf, bufLen, renderBuf, renderItem, init]
  constructor
  · exact (stream_body_terminates okCtx).1 c4HighInput
      (Body.message BodySize.stream []) 2 rfl (by rw [hbig])
  · have h := (stream_body_terminates okCtx).2.2 [['a'], ['b']] BodySize.stream
      c4StreamInput rfl rfl 5 (by decide)
    obtain ⟨i', h1, h2, h3⟩ := h
    refine ⟨i', h1, ?_, h3⟩
    rw [h2]
    simp [c4StreamInput, out_items, init, chunkFrames]

theorem flags_keepalive_eta (f : Flags) (h : f.keepalive = true) :
    ({ f with keepalive := true } : Flags) = f := by
  cases f
  simp at h
  rw [h]

/-- send_response for an empty-body response when the codec grants
keep-alive and the flag already holds: only the head is appended. -/
theorem send_response_empty_c1 (i : Inner) (status : Nat)
    (hck : i.codec_keepalive = true) (hkal : i.flags.keepalive = true) :
    send_response i status Body.empty
      = ({ i with write_buf := i.write_buf ++ [OutItem.head status BodySize.empty] },
         State.none) := by
  unfold send_response
  simp [Body.length, hck, flags_keepalive_eta i.flags hkal]

/-- poll_request does nothing once the read buffer holds no further decode
outcomes. -/
theorem c1_poll_request_empty (ctx : Ctx) (i : Inner)
    (hce : i.codec_events = []) :
    poll_request ctx i = (i, false) := by
  unfold poll_request
  by_cases h : MAX_PIPELINED_MESSAGES ≤ i.messages.length ∨ can_read i = false
  · rw [if_pos h]
  · rw [if_neg h, hce]
    simp [poll_request_loop]

/-- Decode loop, busy state: every pipelined head is appended at the back of
the pending-message queue, in order. -/
theorem c1_decode_busy (ctx : Ctx) :
    ∀ (evs : List Request) (i : Inner) (b : Bool), evs ≠ [] →
      i.state.is_empty = false →
      poll_request_loop ctx (headEvents evs) i b
        = ({ i with
              codec_events := []
              codec_message_type := MessageType.none
              flags := { i.flags with started := true }
              messages := i.messages ++ evs.map DispatcherMessage.item }, true) := by
  intro evs
  induction evs with
  | nil => intro i b h; exact absurd rfl h
  | cons r rest ih =>
    intro i b hne hbusy
    simp only [headEvents, List.map_cons, poll_request_loop]
    rw [if_neg (by simp [hbusy])]
    cases hr : rest with
    | nil =>
      simp [poll_request_loop, headEvents]
    | cons r2 rest2 =>
      rw [← hr]
      have := ih { i with
          codec_events := headEvents rest
          codec_message_type := MessageType.none
          flags := { i.flags with started := true }
          messages := i.messages ++ [DispatcherMessage.item r] } true
        (by rw [hr]; simp) (by simpa using hbusy)
      simp only [headEvents] at this
      rw [this]
      simp

/-- handle_request under the pipelining scenario: a zero-delay service
responds immediately (head encoded, state stays Idle); a slow service moves
the state to ServiceCall with the delay counted down by the first poll. -/
theorem c1_handle (s d : Request → Nat) (j : Inner) (r : Request)
    (hrex : r.expect = false) (hck : j.codec_keepalive = true)
    (hkal : j.flags.keepalive = true) :
    handle_request (c1Ctx s d) j r
      = if d r = 0
        then ({ j with write_buf := j.write_buf ++ [respHead s r] }, State.none)
        else (j, State.serviceCall ⟨d r - 1, ⟨s r, Body.empty⟩⟩) := by
  unfold handle_request call_service
  rw [hrex]
  cases hd : d r with
  | zero =>
    simp only [c1Ctx, ServiceFuture.poll, hd]
    rw [send_response_empty_c1 _ _ hck hkal]
    simp [respHead]
  | succ k =>
    simp only [c1Ctx, ServiceFuture.poll, hd]
    simp

/-- Decode loop, idle state: zero-delay requests are handled immediately in
order, the first slow request occupies the state, and the rest are queued in
order, as described by c1_decode. -/
theorem c1_decode_idle (s d : Request → Nat) :
    ∀ (evs : List Request) (i : Inner) (b : Bool), evs ≠ [] →
      i.state = State.none →
      i.codec_keepalive = true →
      i.flags.keepalive = true →
      (∀ r ∈ evs, r.expect = false) →
      poll_request_loop (c1Ctx s d) (headEvents evs) i b
        = ({ i with
              codec_events := []
              codec_message_type := MessageType.none
              flags := { i.flags with started := true }
              messages := i.messages
                ++ ((c1_decode d evs).2.2).map DispatcherMessage.item
              write_buf := i.write_buf ++ ((c1_decode d evs).1).map (respHead s)
              state := stState s (c1_decode d evs).2.1 }, true) := by
  intro evs
  induction evs with
  | nil => intro i b h; exact absurd rfl h
  | cons r rest ih =>
    intro i b hne hst hck hkal hex
    have hrex : r.expect = false := hex r (List.mem_cons_self _ _)
    simp only [headEvents, List.map_cons, poll_request_loop]
    rw [if_pos (by simp [hst, State.is_empty])]
    rw [c1_handle s d _ r hrex (by simpa using hck) (by simpa using hkal)]
    cases hd : d r with
    | zero =>
      rw [if_pos rfl]
      cases hrest : rest with
      | nil =>
        simp [poll_request_loop, c1_decode, hd, headEvents, stState, respHead]
      | cons r2 rest2 =>
        rw [← hrest]
        have := ih { i with
            codec_events := headEvents rest
            flags := { i.flags with started := true }
            codec_message_type := MessageType.none
            write_buf := i.write_buf ++ [respHead s r]
            state := State.none } true
          (by rw [hrest]; simp) rfl (by simpa using hck) (by simpa using hkal)
          (fun r' hr' => hex r' (List.mem_cons_of_mem _ hr'))
        simp only [headEvents] at this
        simp only []
        rw [this]
        simp [c1_decode, hd, respHead]
    | succ k =>
      rw [if_neg (by omega)]
      try simp only [hd, Nat.add_sub_cancel]
      try simp only []
      cases hrest : rest with
      | nil =>
        simp [poll_request_loop, c1_decode, hd, headEvents, stState, respHead]
      | cons r2 rest2 =>
        rw [← hrest]
        have := c1_decode_busy (c1Ctx s d) rest
          { i with
              codec_events := headEvents rest
              flags := { i.flags with started := true }
              codec_message_type := MessageType.none
              state := State.serviceCall ⟨k, ⟨s r, Body.empty⟩⟩ } true
          (by rw [hrest]; simp) (by simp [State.is_empty])
        simp only [headEvents] at this
        rw [this]
        simp [c1_decode, hd, stState, respHead]

/-- c1_decode is a partition of the request list, in order. -/
theorem c1_decode_split (d : Request → Nat) :
    ∀ rs : List Request,
      rs = (c1_decode d rs).1 ++ stReqs (c1_decode d rs).2.1 ++ (c1_decode d rs).2.2 := by
  intro rs
  induction rs with
  | nil => simp [c1_decode, stReqs]
  | cons r rest ih =>
    by_cases hd : d r = 0
    · simp only [c1_decode, hd, if_true, List.cons_append]
      exact congrArg (List.cons r) ih
    · simp [c1_decode, hd, stReqs]

/-- poll_response with nothing in flight and an empty queue stops at
once. -/
theorem c1_pr_idle_empty (ctx : Ctx) (i : Inner)
    (hst : i.state = State.none) (hmsg : i.messages = [])
    (fuel : Nat) (hf : 1 ≤ fuel) :
    poll_response ctx fuel i = some (i, false) := by
  cases fuel with
  | zero => exact absurd hf (by simp)
  | succ f =>
    simp only [poll_response, hst, hmsg]

/-- Rewriting three fields by their own values is the identity. -/
theorem inner_eta3 (i : Inner) (stv : State) (ms : List DispatcherMessage)
    (wb : List OutItem) (h1 : i.state = stv) (h2 : i.messages = ms)
    (h3 : i.write_buf = wb) :
    ({ i with state := stv, messages := ms, write_buf := wb } : Inner) = i := by
  subst h1; subst h2; subst h3; rfl

/-- Updating messages and write_buf by their own values leaves only the
state update. -/
theorem inner_upd3 (i : Inner) (stv : State) (ms : List DispatcherMessage)
    (wb : List OutItem) (h2 : i.messages = ms) (h3 : i.write_buf = wb) :
    ({ i with state := stv, messages := ms, write_buf := wb } : Inner)
      = { i with state := stv } := by
  subst h2; subst h3; rfl

/-- The response loop under the pipelining scenario: it always returns
need_write = false having responded, in order, to some prefix of the
pending requests (in-flight first, then from the front of the queue), and
every turn with pending work makes strict progress on the work measure. -/
theorem c1_poll_response (s d : Request → Nat) :
    ∀ (μ : Nat) (st : Option (Request × Nat)) (qs : List Request) (i : Inner),
      c1_mu d st qs ≤ μ →
      i.state = stState s st →
      i.messages = qs.map DispatcherMessage.item →
      i.codec_events = [] →
      i.codec_keepalive = true →
      i.flags.keepalive = true →
      (∀ r ∈ qs, r.expect = false) →
      ∀ fuel, μ + 1 ≤ fuel →
        ∃ (ps : List Request) (st' : Option (Request × Nat)) (qs' : List Request),
          stReqs st ++ qs = ps ++ stReqs st' ++ qs'
          ∧ (∀ r ∈ qs', r.expect = false)
          ∧ poll_response (c1Ctx s d) fuel i
              = some ({ i with
                    state := stState s st'
                    messages := qs'.map DispatcherMessage.item
                    write_buf := i.write_buf ++ ps.map (respHead s) }, false)
          ∧ c1_mu d st' qs' ≤ c1_mu d st qs
          ∧ (0 < c1_mu d st qs → c1_mu d st' qs' < c1_mu d st qs) := by
  intro μ
  induction μ with
  | zero =>
    intro st qs i hmu hst hmsg hce hck hkal hqs fuel hf
    have hstn : st = Option.none := by
      cases st with
      | none => rfl
      | some p => simp [c1_mu] at hmu
    have hqsn : qs = [] := by
      cases qs with
      | nil => rfl
      | cons q l => subst hstn; simp [c1_mu, c1_cost] at hmu
    subst hstn; subst hqsn
    refine ⟨[], Option.none, [], rfl, by simp, ?_, le_rfl, by simp [c1_mu]⟩
    rw [inner_eta3 i (stState s Option.none) (List.map DispatcherMessage.item [])
      (i.write_buf ++ List.map (respHead s) []) hst hmsg (by simp)]
    exact c1_pr_idle_empty (c1Ctx s d) i (by simpa [stState] using hst)
      (by simpa using hmsg) fuel (by omega)
  | succ m ih =>
    intro st qs i hmu hst hmsg hce hck hkal hqs fuel hf
    cases fuel with
    | zero => exact absurd hf (by simp)
    | succ f =>
      cases st with
      | none =>
        cases qs with
        | nil =>
          refine ⟨[], Option.none, [], rfl, by simp, ?_, le_rfl, by simp [c1_mu]⟩
          rw [inner_eta3 i (stState s Option.none) (List.map DispatcherMessage.item [])
            (i.write_buf ++ List.map (respHead s) []) hst hmsg (by simp)]
          exact c1_pr_idle_empty (c1Ctx s d) i (by simpa [stState] using hst)
            (by simpa using hmsg) (Nat.succ f) (by omega)
        | cons r rest =>
          have hrex : r.expect = false := hqs r (List.mem_cons_self _ _)
          have hrest : ∀ r' ∈ rest, r'.expect = false :=
            fun r' h => hqs r' (List.mem_cons_of_mem _ h)
          simp only [poll_response, hst, stState, hmsg, List.map_cons]
          rw [c1_handle s d _ r hrex (by simpa using hck) (by simpa using hkal)]
          by_cases hd : d r = 0
          · rw [if_pos hd]
            simp only []
            rw [show (State.none).is_empty = true from rfl]
            simp only [if_true]
            refine ⟨[r], Option.none, rest, by simp [stReqs], hrest, ?_, ?_, ?_⟩
            · simp [stState]
            · simp [c1_mu, c1_cost]
            · intro _
              simp only [c1_mu, c1_cost, List.map_cons, List.sum_cons]
              omega
          · rw [if_neg hd]
            simp only []
            rw [show (State.serviceCall ⟨d r - 1, ⟨s r, Body.empty⟩⟩).is_empty = false
              from rfl]
            simp only [Bool.false_eq_true, if_false]
            have hmu2 : c1_mu d (some (r, d r - 1)) rest ≤ m := by
              simp only [c1_mu, c1_cost, List.map_cons, List.sum_cons] at hmu ⊢
              omega
            have := ih (some (r, d r - 1)) rest
              { i with
                  messages := rest.map DispatcherMessage.item
                  state := State.serviceCall ⟨d r - 1, ⟨s r, Body.empty⟩⟩ }
              hmu2 (by simp [stState]) (by simp) (by simpa using hce)
              (by simpa using hck) (by simpa using hkal) hrest f (by omega)
            obtain ⟨ps', st', qs', hsplit', hex', heq', hle', hlt'⟩ := this
            refine ⟨ps', st', qs', ?_, hex', ?_, ?_, ?_⟩
            · simpa [stReqs] using hsplit'
            · rw [heq']
              simp
              rfl
            · calc c1_mu d st' qs' ≤ c1_mu d (some (r, d r - 1)) rest := hle'
                _ ≤ c1_mu d Option.none (r :: rest) := by
                    simp only [c1_mu, c1_cost, List.map_cons, List.sum_cons]
                    omega
            · intro _
              calc c1_mu d st' qs' ≤ c1_mu d (some (r, d r - 1)) rest := hle'
                _ < c1_mu d Option.none (r :: rest) := by
                    simp only [c1_mu, c1_cost, List.map_cons, List.sum_cons]
                    omega
      | some p =>
        obtain ⟨r, k⟩ := p
        simp only [poll_response, hst, stState, ServiceFuture.poll]
        cases k with
        | zero =>
          simp only []
          rw [send_response_empty_c1 i (s r) hck hkal]
          simp only []
          have hmu2 : c1_mu d Option.none qs ≤ m := by
            simp only [c1_mu] at hmu ⊢
            omega
          have := ih Option.none qs
            { i with
                write_buf := i.write_buf ++ [OutItem.head (s r) BodySize.empty]
                state := State.none }
            hmu2 (by simp [stState]) (by simpa using hmsg) (by simpa using hce)
            (by simpa using hck) (by simpa using hkal) hqs f (by omega)
          obtain ⟨ps', st', qs', hsplit', hex', heq', hle', hlt'⟩ := this
          refine ⟨r :: ps', st', qs', ?_, hex', ?_, ?_, ?_⟩
          · simpa [stReqs] using congrArg (List.cons r) hsplit'
          · rw [heq']
            simp [respHead]
            rfl
          · calc c1_mu d st' qs' ≤ c1_mu d Option.none qs := hle'
              _ ≤ c1_mu d (some (r, 0)) qs := by simp [c1_mu]
          · intro _
            calc c1_mu d st' qs' ≤ c1_mu d Option.none qs := hle'
              _ < c1_mu d (some (r, 0)) qs := by simp [c1_mu]
        | succ k' =>
          simp only []
          rw [c1_poll_request_empty (c1Ctx s d) _ (by simpa using hce)]
          simp only [Bool.false_eq_true, if_false]
          refine ⟨[], some (r, k'), qs, rfl, hqs, ?_, ?_, ?_⟩
          · simp only [stState, List.map_nil, List.append_nil]
            rw [inner_upd3 i (State.serviceCall ⟨k', ⟨s r, Body.empty⟩⟩)
              (List.map DispatcherMessage.item qs) i.write_buf hmsg rfl]
          · simp [c1_mu]
          · intro _
            simp [c1_mu]

/-- One pass of the write loop: the poll_response result is flushed to the
transport, giving the c1Next state. -/
theorem c1_drive (s d : Request → Nat) (μ : Nat) (st : Option (Request × Nat))
    (qs : List Request) (i : Inner)
    (hmu : c1_mu d st qs ≤ μ)
    (hst : i.state = stState s st)
    (hmsg : i.messages = qs.map DispatcherMessage.item)
    (hce : i.codec_events = [])
    (hck : i.codec_keepalive = true)
    (hkal : i.flags.keepalive = true)
    (hqs : ∀ r ∈ qs, r.expect = false) :
    ∀ fuel, μ + 1 ≤ fuel →
      ∃ (ps : List Request) (st' : Option (Request × Nat)) (qs' : List Request),
        stReqs st ++ qs = ps ++ stReqs st' ++ qs'
        ∧ (∀ r ∈ qs', r.expect = false)
        ∧ write_loop (c1Ctx s d) fuel i = some (c1Next s i ps st' qs')
        ∧ c1_mu d st' qs' ≤ c1_mu d st qs
        ∧ (0 < c1_mu d st qs → c1_mu d st' qs' < c1_mu d st qs) := by
  intro fuel hf
  cases fuel with
  | zero => exact absurd hf (by simp)
  | succ f =>
    obtain ⟨ps, st', qs', hsplit, hex', heq, hle, hlt⟩ :=
      c1_poll_response s d μ st qs i hmu hst hmsg hce hck hkal hqs
        (Nat.succ f) (by omega)
    refine ⟨ps, st', qs', hsplit, hex', ?_, hle, hlt⟩
    simp only [write_loop, heq, poll_flush]
    simp [c1Next]

/-- One full wake-up of the dispatcher in the pipelining scenario (all heads
already decoded): it emits, in order, the responses poll_response settled,
returns NotReady, and strictly decreases the pending-work measure. -/
theorem c1_poll_once (s d : Request → Nat) (μ : Nat) (st : Option (Request × Nat))
    (qs : List Request) (i : Inner)
    (hmu : c1_mu d st qs ≤ μ)
    (hst : i.state = stState s st)
    (hmsg : i.messages = qs.map DispatcherMessage.item)
    (hce : i.codec_events = [])
    (hck : i.codec_keepalive = true)
    (hfl : c1Flags i.flags)
    (herr : i.error = Option.none)
    (hkt : i.ka_timer = Option.none)
    (hqs : ∀ r ∈ qs, r.expect = false) :
    ∀ fuel, μ + 2 ≤ fuel →
      ∃ (ps : List Request) (st' : Option (Request × Nat)) (qs' : List Request),
        stReqs st ++ qs = ps ++ stReqs st' ++ qs'
        ∧ (∀ r ∈ qs', r.expect = false)
        ∧ dispatcher_poll (c1Ctx s d) false fuel i
            = some (c1Next s i ps st' qs', PollOutcome.notReady)
        ∧ c1_mu d st' qs' ≤ c1_mu d st qs
        ∧ (0 < c1_mu d st qs → c1_mu d st' qs' < c1_mu d st qs) := by
  obtain ⟨hkal, hsh, hrd, hwd⟩ := hfl
  intro fuel hf
  cases fuel with
  | zero => exact absurd hf (by simp)
  | succ f =>
    obtain ⟨ps, st', qs', hsplit, hex', heq, hle, hlt⟩ :=
      c1_drive s d μ st qs i hmu hst hmsg hce hck hkal hqs
        (Nat.succ f) (by omega)
    refine ⟨ps, st', qs', hsplit, hex', ?_, hle, hlt⟩
    have hka : poll_keepalive (c1Ctx s d) false i = Except.ok i := by
      unfold poll_keepalive
      rw [hkt]
      simp [hsh]
    simp only [dispatcher_poll, hka]
    rw [c1_poll_request_empty (c1Ctx s d) i hce]
    simp only [hsh, Bool.false_eq_true, if_false, heq]
    have hwd3 : (c1Next s i ps st' qs').flags.write_disconnect = false := by
      simp [c1Next, hwd]
    have hrd3 : (c1Next s i ps st' qs').flags.read_disconnect = false := by
      simp [c1Next, hrd]
    have hsh3 : (c1Next s i ps st' qs').flags.shutdown = false := by
      simp [c1Next, hsh]
    have hkal3 : (c1Next s i ps st' qs').flags.keepalive = true := by
      simp [c1Next, hkal]
    have herr3 : (c1Next s i ps st' qs').error = Option.none := by
      simp [c1Next, herr]
    simp only [hwd3, hrd3, hsh3, hkal3, herr3, Bool.false_and, Bool.false_eq_true,
      if_false]
    cases st' with
    | none =>
      simp [c1Next, stState, State.is_empty, herr, hkal, hsh]
    | some p =>
      obtain ⟨r', k'⟩ := p
      simp [c1Next, stState, State.is_empty]

/-- Driving the dispatcher to quiescence: enough wake-ups emit exactly the
responses of every pending request, in order, ending idle with an empty
queue. -/
theorem c1_run (s d : Request → Nat) :
    ∀ (μ : Nat) (st : Option (Request × Nat)) (qs : List Request) (i : Inner),
      c1_mu d st qs ≤ μ →
      i.state = stState s st →
      i.messages = qs.map DispatcherMessage.item →
      i.codec_events = [] →
      i.codec_keepalive = true →
      c1Flags i.flags →
      i.error = Option.none →
      i.ka_timer = Option.none →
      (∀ r ∈ qs, r.expect = false) →
      ∀ fuel, μ + 2 ≤ fuel →
        ∃ n i', run_polls (c1Ctx s d) fuel n i = some i'
          ∧ out_items i' = out_items i ++ (stReqs st ++ qs).map (respHead s)
          ∧ i'.state = State.none
          ∧ i'.messages = [] := by
  intro μ
  induction μ with
  | zero =>
    intro st qs i hmu hst hmsg hce hck hfl herr hkt hqs fuel hf
    have hstn : st = Option.none := by
      cases st with
      | none => rfl
      | some p => simp [c1_mu] at hmu
    have hqsn : qs = [] := by
      cases qs with
      | nil => rfl
      | cons q l => subst hstn; simp [c1_mu, c1_cost] at hmu
    subst hstn; subst hqsn
    exact ⟨0, i, rfl, by simp [stReqs], by simpa [stState] using hst,
      by simpa using hmsg⟩
  | succ m ih =>
    intro st qs i hmu hst hmsg hce hck hfl herr hkt hqs fuel hf
    by_cases hz : c1_mu d st qs = 0
    · have hstn : st = Option.none := by
        cases st with
        | none => rfl
        | some p => simp [c1_mu] at hz
      have hqsn : qs = [] := by
        cases qs with
        | nil => rfl
        | cons q l => subst hstn; simp [c1_mu, c1_cost] at hz
      subst hstn; subst hqsn
      exact ⟨0, i, rfl, by simp [stReqs], by simpa [stState] using hst,
        by simpa using hmsg⟩
    · obtain ⟨ps, st1, qs1, hsplit, hex1, heq, hle, hlt⟩ :=
        c1_poll_once s d (m + 1) st qs i hmu hst hmsg hce hck hfl herr hkt hqs
          fuel hf
      have hmu1 : c1_mu d st1 qs1 ≤ m := by
        have := hlt (Nat.pos_of_ne_zero hz)
        omega
      obtain ⟨hkal, hsh, hrd, hwd⟩ := hfl
      obtain ⟨n', i', hrun, hout, hst', hmsg'⟩ :=
        ih st1 qs1 (c1Next s i ps st1 qs1) hmu1
          (by simp [c1Next]) (by simp [c1Next]) (by simpa [c1Next] using hce)
          (by simpa [c1Next] using hck)
          (by exact ⟨by simpa [c1Next] using hkal, by simpa [c1Next] using hsh,
            by simpa [c1Next] using hrd, by simpa [c1Next] using hwd⟩)
          (by simpa [c1Next] using herr) (by simpa [c1Next] using hkt) hex1
          fuel (by omega)
    
      refine ⟨n' + 1, i', ?_, ?_, hst', hmsg'⟩
      · simp only [run_polls, heq, hrun]
      · rw [hout]
        simp only [c1Next, out_items]
        simp [hsplit]

/-- Claim C1: for every sequence of pipelined requests delivered in a single
read, the dispatcher emits exactly one response per request, strictly in
decode order: heads are handled immediately only when the state is Idle,
otherwise queued at the back, and responses are only ever produced from the
in-flight request and the front of the queue.  The run ends idle with an
empty queue and the output lists exactly the requests' response heads in
request order. -/
theorem pipelined_requests_in_order (s d : Request → Nat) (rs : List Request)
    (hex : ∀ r ∈ rs, r.expect = false) :
    ∃ fuel n i', run_polls (c1Ctx s d) fuel n (init (headEvents rs)) = some i'
      ∧ out_items i' = rs.map (respHead s)
      ∧ i'.state = State.none
      ∧ i'.messages = [] := by
  cases hrs : rs with
  | nil =>
    exact ⟨0, 0, init (headEvents []), rfl, by simp [out_items, init, headEvents],
      rfl, rfl⟩
  | cons r0 rest0 =>
    rw [← hrs]
    have hne : rs ≠ [] := by rw [hrs]; simp
    have hloop := c1_decode_idle s d rs (init (headEvents rs)) false hne rfl rfl
      rfl hex
    set t := c1_decode d rs with ht
    set iA : Inner :=
      { init (headEvents rs) with
          codec_events := []
          codec_message_type := MessageType.none
          flags := { (init (headEvents rs)).flags with started := true }
          messages := (init (headEvents rs)).messages
            ++ t.2.2.map DispatcherMessage.item
          write_buf := (init (headEvents rs)).write_buf ++ t.1.map (respHead s)
          state := stState s t.2.1 } with hiA
    have hpr : poll_request (c1Ctx s d) (init (headEvents rs)) = (iA, true) := by
      unfold poll_request
      rw [if_neg (by simp [can_read, init, MAX_PIPELINED_MESSAGES])]
      rw [show (init (headEvents rs)).codec_events = headEvents rs from rfl]
      rw [hloop]
      simp [init, hiA]
    have hkaInit : poll_keepalive (c1Ctx s d) false (init (headEvents rs))
        = Except.ok (init (headEvents rs)) := by
      unfold poll_keepalive
      simp [init]
    have hkaA : poll_keepalive (c1Ctx s d) false iA = Except.ok iA := by
      unfold poll_keepalive
      simp [hiA, init]
    have hprA : poll_request (c1Ctx s d) iA = (iA, false) :=
      c1_poll_request_empty (c1Ctx s d) iA (by simp [hiA])
    -- component facts of the decoded state
    have hstA : iA.state = stState s t.2.1 := by simp [hiA]
    have hmsgA : iA.messages = t.2.2.map DispatcherMessage.item := by
      simp [hiA, init]
    have hceA : iA.codec_events = [] := by simp [hiA]
    have hckA : iA.codec_keepalive = true := by simp [hiA, init]
    have hflA : c1Flags iA.flags := by
      refine ⟨by simp [hiA, init], by simp [hiA, init], by simp [hiA, init],
        by simp [hiA, init]⟩
    have herrA : iA.error = Option.none := by simp [hiA, init]
    have hktA : iA.ka_timer = Option.none := by simp [hiA, init]
    have hqsA : ∀ r' ∈ t.2.2, r'.expect = false := by
      intro r' hr'
      refine hex r' ?_
      have := c1_decode_split d rs
      rw [this, ← ht]
      exact List.mem_append.2 (Or.inr hr')
    set μA := c1_mu d t.2.1 t.2.2 with hμA
    obtain ⟨ps, st1, qs1, hsplit, hex1, heqA, hle1, _⟩ :=
      c1_poll_once s d μA t.2.1 t.2.2 iA le_rfl hstA hmsgA hceA hckA hflA
        herrA hktA hqsA (μA + 2) le_rfl
    have hsame : dispatcher_poll (c1Ctx s d) false (μA + 2) (init (headEvents rs))
        = some (c1Next s iA ps st1 qs1, PollOutcome.notReady) := by
      rw [show μA + 2 = Nat.succ (μA + 1) from rfl] at heqA ⊢
      rw [← heqA]
      simp only [dispatcher_poll, hkaInit, hkaA]
      simp only [show (init (headEvents rs)).flags.shutdown = false from rfl,
        hflA.2.1]
      simp only [Bool.false_eq_true, if_false, hpr, hprA]
    obtain ⟨hkalA, hshA, hrdA, hwdA⟩ := hflA
    obtain ⟨n', i', hrun, hout, hst', hmsg'⟩ :=
      c1_run s d μA st1 qs1 (c1Next s iA ps st1 qs1)
        (le_trans hle1 le_rfl)
        (by simp [c1Next]) (by simp [c1Next]) (by simp [c1Next, hceA])
        (by simpa [c1Next] using hckA)
        ⟨by simpa [c1Next] using hkalA, by simpa [c1Next] using hshA,
          by simpa [c1Next] using hrdA, by simpa [c1Next] using hwdA⟩
        (by simpa [c1Next] using herrA) (by simpa [c1Next] using hktA) hex1
        (μA + 2) le_rfl
    refine ⟨μA + 2, n' + 1, i', ?_, ?_, hst', hmsg'⟩
    · simp only [run_polls, hsame, hrun]
    · rw [hout]
      have houtA : out_items (c1Next s iA ps st1 qs1)
          = t.1.map (respHead s) ++ ps.map (respHead s) := by
        simp [c1Next, out_items, hiA, init]
      rw [houtA]
      have : rs = t.1 ++ (ps ++ stReqs st1 ++ qs1) := by
        conv_lhs => rw [c1_decode_split d rs]
        rw [← ht, ← hsplit]
        simp
      rw [show rs.map (respHead s)
          = (t.1 ++ (ps ++ stReqs st1 ++ qs1)).map (respHead s) from by rw [← this]]
      simp [hsplit]

/-- Witness for pipelined_requests_in_order: three pipelined requests with
mixed service delays yield exactly their three responses in order. -/
theorem pipelined_requests_in_order_witness :
    ∃ fuel n i',
      run_polls (c1Ctx (fun r => 200 + r.id) (fun r => r.id % 2)) fuel n
          (init (headEvents [⟨1, false⟩, ⟨2, false⟩, ⟨3, false⟩])) = some i'
      ∧ out_items i'
          = [OutItem.head 201 BodySize.empty, OutItem.head 202 BodySize.empty,
             OutItem.head 203 BodySize.empty]
      ∧ i'.state = State.none
      ∧ i'.messages = [] := by
  obtain ⟨fuel, n, i', h1, h2, h3, h4⟩ :=
    pipelined_requests_in_order (fun r => 200 + r.id) (fun r => r.id % 2)
      [⟨1, false⟩, ⟨2, false⟩, ⟨3, false⟩] (by decide)
  exact ⟨fuel, n, i', h1, by rw [h2]; rfl, h3, h4⟩

end ActixH1
